import Mathlib

/-!
Verification of the Baalencer TCP load balancer (src/src/main.rs).

The embedding is shallow:

* `Backend` mirrors the Rust `struct Backend { address: String }`.
* The rotation state of `LoadBalancer` is the `VecDeque<Backend>` guarded by
  the mutex; it is modelled as a `List Backend` whose head is the deque front.
* `next_backend` mirrors `LoadBalancer::next_backend`: pop the front, push a
  clone at the back, return the popped element.  The Rust body holds the mutex
  for the whole pop/push/return, so one call is one atomic state transition.
* `handle_client` mirrors `LoadBalancer::handle_client`.  The sockets are
  replaced by a `NetEnv` oracle describing what the network does (the bytes
  the single 4096-byte client read delivers, whether `TcpStream::connect`
  succeeds for an address, whether the `write_all` calls succeed, and what
  `read_to_end` on the backend stream accumulates).  The observable behaviour
  of the handler is a trace of network events, the pool state left behind,
  and whether the function returned `Ok(())` (`ok = true`) or propagated an
  `std::io::Error` through `?` (`ok = false`).
* `String::from_utf8_lossy` is abstracted as an arbitrary decoder parameter
  `from_utf8_lossy`; the Rust code binds its result to `request` and never
  uses it, which the embedding reproduces with an unused `let`.

Bytes are `Nat` (the source never inspects byte values); the two literal
error responses are embedded via the code points of the exact Rust string
literals, which are pure ASCII, so code points and UTF-8 bytes coincide.
-/

namespace Baalencer

/-- Mirrors `struct Backend { address: String }` from src/src/main.rs. -/
structure Backend where
  address : String
deriving DecidableEq, Repr

namespace LoadBalancer

/-- Mirrors `LoadBalancer::new`: push each configured address onto the back of
an initially empty deque, in order. -/
def new (backend_addresses : List String) : List Backend :=
  backend_addresses.map (fun addr => { address := addr })

end LoadBalancer

/-- Mirrors `LoadBalancer::next_backend`: under the mutex, `pop_front`; if a
backend came off, `push_back` a clone and return `Some` of it, else `None`.
Returns the result together with the deque state left behind. -/
def next_backend (backends : List Backend) : Option Backend × List Backend :=
  match backends with
  | [] => (none, [])
  | b :: rest => (some b, rest ++ [b])

/-- The pool state after `k` completed calls to `next_backend`, starting
from `pool`. -/
def poolAfter (pool : List Backend) : Nat → List Backend
  | 0 => pool
  | k + 1 => (next_backend (poolAfter pool k)).2

/-- The value returned by the `n`-th (1-indexed) sequential call to
`next_backend`, starting from `pool`. -/
def nthCall (pool : List Backend) (n : Nat) : Option Backend :=
  (next_backend (poolAfter pool (n - 1))).1

/-- The results of `N` successive sequential `next_backend` calls, in call
order. -/
def nextResults (pool : List Backend) : Nat → List (Option Backend)
  | 0 => []
  | k + 1 => nextResults pool k ++ [(next_backend (poolAfter pool k)).1]

/-- One observable network action of a connection handler. -/
inductive NetEvent
  | connAttempt (addr : String)
  | backendWrite (addr : String) (data : List Nat)
  | clientWrite (data : List Nat)
deriving DecidableEq, Repr

/-- Oracle for everything the network does during one `handle_client` run:
`clientPending` is `none` when the initial client read fails, else the bytes
available in the read window (the read delivers at most 4096 of them);
`connectOk` tells whether `TcpStream::connect` to an address succeeds;
`backendWriteOk` whether `write_all` on the backend stream succeeds;
`backendRead addr req` is `none` when `read_to_end` fails, else the bytes the
backend at `addr` sends before closing, given the forwarded request `req`;
`clientWriteOk` whether `write_all` on the client stream succeeds. -/
structure NetEnv where
  clientPending : Option (List Nat)
  connectOk : String → Bool
  backendWriteOk : Bool
  backendRead : String → List Nat → Option (List Nat)
  clientWriteOk : Bool

/-- What one `handle_client` run did: the network events it performed in
order, the pool state it left, and whether it returned `Ok(())`. -/
structure HandlerResult where
  trace : List NetEvent
  pool : List Backend
  ok : Bool
deriving DecidableEq, Repr

/-- Code points of a string literal; the two response literals are ASCII, so
these are exactly their UTF-8 bytes. -/
def strBytes (s : String) : List Nat :=
  s.data.map Char.toNat

/-- The fixed 503 response literal from `handle_client`. -/
def resp503 : List Nat :=
  strBytes "HTTP/1.1 503 Service Unavailable\r\n\r\nNo backend servers available"

/-- The fixed 502 response literal from `handle_client`. -/
def resp502 : List Nat :=
  strBytes "HTTP/1.1 502 Bad Gateway\r\n\r\nBackend server unavailable"

/-- Mirrors `LoadBalancer::handle_client` over the `NetEnv` oracle.  The
statement order of the Rust body is kept: read up to 4096 bytes from the
client (an error propagates through `?` with nothing done); bind the unused
lossy decoding of the request; call `next_backend`; on `Some`, attempt the
outbound connection — on success forward the read bytes, read the backend to
end of stream and write that response to the client, on failure write the 502
literal; on `None`, write the 503 literal.  A failing `write_all` or
`read_to_end` propagates through `?` after the events already performed. -/
def handle_client (pool : List Backend) (env : NetEnv)
    (from_utf8_lossy : List Nat → String) : HandlerResult :=
  match env.clientPending with
  | none => ⟨[], pool, false⟩
  | some pending =>
    let buffer := pending.take 4096
    let _request := from_utf8_lossy buffer
    match next_backend pool with
    | (some backend, pool₂) =>
      if env.connectOk backend.address then
        if env.backendWriteOk then
          match env.backendRead backend.address buffer with
          | some response =>
            if env.clientWriteOk then
              ⟨[NetEvent.connAttempt backend.address,
                NetEvent.backendWrite backend.address buffer,
                NetEvent.clientWrite response], pool₂, true⟩
            else
              ⟨[NetEvent.connAttempt backend.address,
                NetEvent.backendWrite backend.address buffer], pool₂, false⟩
          | none =>
            ⟨[NetEvent.connAttempt backend.address,
              NetEvent.backendWrite backend.address buffer], pool₂, false⟩
        else
          ⟨[NetEvent.connAttempt backend.address], pool₂, false⟩
      else
        if env.clientWriteOk then
          ⟨[NetEvent.connAttempt backend.address,
            NetEvent.clientWrite resp502], pool₂, true⟩
        else
          ⟨[NetEvent.connAttempt backend.address], pool₂, false⟩
    | (none, pool₂) =>
      if env.clientWriteOk then
        ⟨[NetEvent.clientWrite resp503], pool₂, true⟩
      else
        ⟨[], pool₂, false⟩

/-- The addresses of all outbound connection attempts in a trace. -/
def connAttempts (tr : List NetEvent) : List String :=
  tr.filterMap (fun e =>
    match e with
    | NetEvent.connAttempt a => some a
    | _ => none)

/-- All bytes written to a backend over a trace, in order. -/
def writesToBackend (tr : List NetEvent) : List Nat :=
  tr.foldr (fun e acc =>
    match e with
    | NetEvent.backendWrite _ d => d ++ acc
    | _ => acc) []

/-- All bytes written to the client over a trace, in order. -/
def writesToClient (tr : List NetEvent) : List Nat :=
  tr.foldr (fun e acc =>
    match e with
    | NetEvent.clientWrite d => d ++ acc
    | _ => acc) []

/-! Basic lemmas connecting `next_backend` iteration to `List.rotate`. -/

theorem next_backend_snd (l : List Backend) : (next_backend l).2 = l.rotate 1 := by
  cases l with
  | nil => rfl
  | cons b rest => simp [next_backend, List.rotate_cons_succ]

theorem next_backend_fst (l : List Backend) : (next_backend l).1 = l.head? := by
  cases l <;> rfl

theorem poolAfter_eq_rotate (pool : List Backend) (k : Nat) :
    poolAfter pool k = pool.rotate k := by
  induction k with
  | zero => simp [poolAfter]
  | succ k ih =>
    rw [poolAfter, ih, next_backend_snd, List.rotate_rotate]

theorem nthCall_eq (pool : List Backend) (n : Nat) :
    nthCall pool n = (pool.rotate (n - 1)).head? := by
  rw [nthCall, poolAfter_eq_rotate, next_backend_fst]

theorem nthCall_mod (pool : List Backend) (h : pool ≠ []) (n : Nat) :
    nthCall pool n = pool.get? ((n - 1) % pool.length) := by
  have hpos : 0 < pool.length := List.length_pos.mpr h
  have hm : (n - 1) % pool.length < pool.length := Nat.mod_lt _ hpos
  rw [nthCall_eq, ← List.rotate_mod, List.head?_rotate hm, List.get?_eq_getElem?]

theorem handle_client_pool (pool : List Backend) (env : NetEnv)
    (dec : List Nat → String) :
    (handle_client pool env dec).pool = pool ∨
    (handle_client pool env dec).pool = (next_backend pool).2 := by
  unfold handle_client
  cases hcp : env.clientPending with
  | none => exact Or.inl rfl
  | some pending =>
    right
    cases pool with
    | nil =>
      simp only [next_backend]
      split <;> rfl
    | cons b rest =>
      simp only [next_backend]
      split
      · split
        · split
          · split <;> rfl
          · rfl
        · rfl
      · split <;> rfl

/-- C1: Round-robin fairness under sequential calls: starting from a pool
built by `LoadBalancer::new` from a non-empty address list, the `n`-th
sequential call (1-indexed) to `next_backend` returns `Some` of the backend
at index `(n - 1) % length` of the original configured order; and for a pool
over three addresses `A, B, C`, four sequential calls yield `A, B, C, A`. -/
theorem round_robin_fairness (addrs : List String) (n : Nat)
    (h : addrs ≠ []) (hn : 1 ≤ n) (A B C : String) :
    (∃ b, nthCall (LoadBalancer.new addrs) n = some b ∧
      (LoadBalancer.new addrs).get? ((n - 1) % addrs.length) = some b) ∧
    nextResults (LoadBalancer.new [A, B, C]) 4 =
      [some { address := A }, some { address := B },
       some { address := C }, some { address := A }] := by
  constructor
  · have hlen : (LoadBalancer.new addrs).length = addrs.length := by
      simp [LoadBalancer.new]
    have hne : LoadBalancer.new addrs ≠ [] := by
      simp [LoadBalancer.new, h]
    have hpos : 0 < addrs.length := List.length_pos.mpr h
    have hmod : (n - 1) % addrs.length < (LoadBalancer.new addrs).length := by
      rw [hlen]; exact Nat.mod_lt _ hpos
    refine ⟨(LoadBalancer.new addrs).get ⟨(n - 1) % addrs.length, hmod⟩, ?_, ?_⟩
    · have hidx : (n - 1) % (LoadBalancer.new addrs).length = (n - 1) % addrs.length := by
        rw [hlen]
      rw [nthCall_mod _ hne, hidx]
      exact List.get?_eq_get hmod
    · exact List.get?_eq_get hmod
  · simp [nextResults, poolAfter, next_backend, LoadBalancer.new, nthCall]

/-- Closed instance of `round_robin_fairness` at `addrs = [x, y], n = 3`:
the third call wraps around and returns the first backend again, and the
four-call pattern over `[A, B, C]` is `A, B, C, A`. -/
theorem round_robin_fairness_witness :
    (∃ b, nthCall (LoadBalancer.new ["x", "y"]) 3 = some b ∧
      (LoadBalancer.new ["x", "y"]).get? ((3 - 1) % (["x", "y"] : List String).length)
        = some b) ∧
    nextResults (LoadBalancer.new ["A", "B", "C"]) 4 =
      [some { address := "A" }, some { address := "B" },
       some { address := "C" }, some { address := "A" }] :=
  round_robin_fairness ["x", "y"] 3 (by decide) (by decide) "A" "B" "C"

/-- C5: Pool membership invariant: every pool state reached by any number of
`next_backend` calls from construction is, as a multiset, equal to the
originally configured pool, and a further `next_backend` call or any
`handle_client` run preserves that multiset — rotation never adds or removes
a backend. -/
theorem pool_membership_invariant (addrs : List String) (k : Nat)
    (env : NetEnv) (dec : List Nat → String) :
    (↑(poolAfter (LoadBalancer.new addrs) k) : Multiset Backend)
        = ↑(LoadBalancer.new addrs) ∧
    (↑(next_backend (poolAfter (LoadBalancer.new addrs) k)).2 : Multiset Backend)
        = ↑(LoadBalancer.new addrs) ∧
    (↑(handle_client (poolAfter (LoadBalancer.new addrs) k) env dec).pool :
        Multiset Backend) = ↑(LoadBalancer.new addrs) := by
  have hrot : ∀ m, (↑((LoadBalancer.new addrs).rotate m) : Multiset Backend)
      = ↑(LoadBalancer.new addrs) := fun m =>
    Multiset.coe_eq_coe.mpr (List.rotate_perm _ m)
  refine ⟨?_, ?_, ?_⟩
  · rw [poolAfter_eq_rotate]; exact hrot k
  · rw [next_backend_snd, poolAfter_eq_rotate, List.rotate_rotate]
    exact hrot (k + 1)
  · rw [poolAfter_eq_rotate]
    rcases handle_client_pool ((LoadBalancer.new addrs).rotate k) env dec with hp | hp
    · rw [hp]; exact hrot k
    · rw [hp, next_backend_snd, List.rotate_rotate]; exact hrot (k + 1)

/-- Closed instance of `pool_membership_invariant`: two rotation steps on a
two-backend pool leave the same multiset of backends. -/
theorem pool_membership_invariant_witness :
    (↑(poolAfter (LoadBalancer.new ["x", "y"]) 2) : Multiset Backend)
        = ↑(LoadBalancer.new ["x", "y"]) ∧
    (↑(next_backend (poolAfter (LoadBalancer.new ["x", "y"]) 2)).2 : Multiset Backend)
        = ↑(LoadBalancer.new ["x", "y"]) ∧
    (↑(handle_client (poolAfter (LoadBalancer.new ["x", "y"]) 2)
        ⟨some [0], fun _ => true, true, fun _ _ => some [1], true⟩
        (fun _ => "")).pool : Multiset Backend) = ↑(LoadBalancer.new ["x", "y"]) :=
  pool_membership_invariant ["x", "y"] 2
    ⟨some [0], fun _ => true, true, fun _ _ => some [1], true⟩ (fun _ => "")

/-- C6: Empty-pool safety: from a pool constructed over the empty address
list, after any number `k` of calls the pool state is still the empty list
(no side effects), and the `k + 1`-st call returns `None`; `next_backend` is
a total function, so no call can panic. -/
theorem empty_pool_safety (k : Nat) :
    poolAfter (LoadBalancer.new []) k = LoadBalancer.new [] ∧
    nthCall (LoadBalancer.new []) (k + 1) = none := by
  have hempty : LoadBalancer.new [] = ([] : List Backend) := rfl
  have hstate : poolAfter (LoadBalancer.new []) k = [] := by
    rw [poolAfter_eq_rotate, hempty, List.rotate_nil]
  exact ⟨hstate.trans hempty.symm, by rw [nthCall, Nat.add_sub_cancel, hstate]; rfl⟩

/-! Unfolding lemmas for `handle_client` once the client read has delivered
`pending`. -/

theorem handle_client_nil (env : NetEnv) (dec : List Nat → String)
    (pending : List Nat) (hread : env.clientPending = some pending) :
    handle_client [] env dec =
      if env.clientWriteOk then ⟨[NetEvent.clientWrite resp503], [], true⟩
      else ⟨[], [], false⟩ := by
  unfold handle_client
  rw [hread]
  rfl

theorem handle_client_cons (b : Backend) (rest : List Backend) (env : NetEnv)
    (dec : List Nat → String) (pending : List Nat)
    (hread : env.clientPending = some pending) :
    handle_client (b :: rest) env dec =
      if env.connectOk b.address then
        if env.backendWriteOk then
          match env.backendRead b.address (pending.take 4096) with
          | some response =>
            if env.clientWriteOk then
              ⟨[NetEvent.connAttempt b.address,
                NetEvent.backendWrite b.address (pending.take 4096),
                NetEvent.clientWrite response], rest ++ [b], true⟩
            else
              ⟨[NetEvent.connAttempt b.address,
                NetEvent.backendWrite b.address (pending.take 4096)],
               rest ++ [b], false⟩
          | none =>
            ⟨[NetEvent.connAttempt b.address,
              NetEvent.backendWrite b.address (pending.take 4096)],
             rest ++ [b], false⟩
        else ⟨[NetEvent.connAttempt b.address], rest ++ [b], false⟩
      else
        if env.clientWriteOk then
          ⟨[NetEvent.connAttempt b.address, NetEvent.clientWrite resp502],
           rest ++ [b], true⟩
        else ⟨[NetEvent.connAttempt b.address], rest ++ [b], false⟩ := by
  unfold handle_client
  rw [hread]
  rfl

theorem handle_client_cons_pool (b : Backend) (rest : List Backend)
    (env : NetEnv) (dec : List Nat → String) (pending : List Nat)
    (hread : env.clientPending = some pending) :
    (handle_client (b :: rest) env dec).pool = rest ++ [b] := by
  rw [handle_client_cons b rest env dec pending hread]
  split
  · split
    · split
      · split <;> rfl
      · rfl
    · rfl
  · split <;> rfl

/-- C2: End-to-end relay: when the pool yields backend `b` and the outbound
connection succeeds, the handler writes exactly the bytes delivered by the
single client read to the backend, accumulates the backend bytes up to end
of stream, writes exactly that accumulated sequence, verbatim, to the
client, and returns `Ok(())`. -/
theorem end_to_end_relay (b : Backend) (rest : List Backend) (env : NetEnv)
    (dec : List Nat → String) (pending response : List Nat)
    (hread : env.clientPending = some pending)
    (hconn : env.connectOk b.address = true)
    (hbw : env.backendWriteOk = true)
    (hbr : env.backendRead b.address (pending.take 4096) = some response)
    (hcw : env.clientWriteOk = true) :
    handle_client (b :: rest) env dec =
      ⟨[NetEvent.connAttempt b.address,
        NetEvent.backendWrite b.address (pending.take 4096),
        NetEvent.clientWrite response], rest ++ [b], true⟩ ∧
    writesToBackend (handle_client (b :: rest) env dec).trace = pending.take 4096 ∧
    writesToClient (handle_client (b :: rest) env dec).trace = response := by
  have hmain : handle_client (b :: rest) env dec =
      ⟨[NetEvent.connAttempt b.address,
        NetEvent.backendWrite b.address (pending.take 4096),
        NetEvent.clientWrite response], rest ++ [b], true⟩ := by
    rw [handle_client_cons b rest env dec pending hread, hconn, hbw, hbr, hcw]
    rfl
  refine ⟨hmain, ?_, ?_⟩ <;> rw [hmain] <;> simp [writesToBackend, writesToClient]

/-- Closed instance of `end_to_end_relay`: a client that sends `PING` to a
backend that answers `PONG` and closes receives exactly `PONG`. -/
theorem end_to_end_relay_witness :
    handle_client [{ address := "127.0.0.1:8081" }]
        ⟨some (strBytes "PING"), fun _ => true, true,
         fun _ _ => some (strBytes "PONG"), true⟩ (fun _ => "") =
      ⟨[NetEvent.connAttempt "127.0.0.1:8081",
        NetEvent.backendWrite "127.0.0.1:8081" ((strBytes "PING").take 4096),
        NetEvent.clientWrite (strBytes "PONG")],
       [] ++ [{ address := "127.0.0.1:8081" }], true⟩ ∧
    writesToBackend (handle_client [{ address := "127.0.0.1:8081" }]
        ⟨some (strBytes "PING"), fun _ => true, true,
         fun _ _ => some (strBytes "PONG"), true⟩ (fun _ => "")).trace
      = (strBytes "PING").take 4096 ∧
    writesToClient (handle_client [{ address := "127.0.0.1:8081" }]
        ⟨some (strBytes "PING"), fun _ => true, true,
         fun _ _ => some (strBytes "PONG"), true⟩ (fun _ => "")).trace
      = strBytes "PONG" :=
  end_to_end_relay { address := "127.0.0.1:8081" } [] _ (fun _ => "")
    (strBytes "PING") (strBytes "PONG") rfl rfl rfl rfl rfl

/-- C3: Unavailable-backend response: whenever `next_backend` returns `None`
(so the pool is empty), the handler writes exactly the 503 literal to the
client, attempts no outbound connection, forwards nothing, leaves the pool
unchanged, and returns `Ok(())`. -/
theorem unavailable_backend_response (pool : List Backend) (env : NetEnv)
    (dec : List Nat → String) (pending : List Nat)
    (hnone : (next_backend pool).1 = none)
    (hread : env.clientPending = some pending)
    (hcw : env.clientWriteOk = true) :
    handle_client pool env dec = ⟨[NetEvent.clientWrite resp503], pool, true⟩ ∧
    writesToClient (handle_client pool env dec).trace = resp503 ∧
    connAttempts (handle_client pool env dec).trace = [] ∧
    writesToBackend (handle_client pool env dec).trace = [] := by
  have hpool : pool = [] := by
    cases pool with
    | nil => rfl
    | cons b rest => simp [next_backend] at hnone
  subst hpool
  have hmain : handle_client [] env dec =
      ⟨[NetEvent.clientWrite resp503], [], true⟩ := by
    rw [handle_client_nil env dec pending hread, hcw]
    rfl
  refine ⟨hmain, ?_, ?_, ?_⟩ <;> rw [hmain] <;>
    simp [writesToClient, connAttempts, writesToBackend]

/-- Closed instance of `unavailable_backend_response` on the empty pool. -/
theorem unavailable_backend_response_witness :
    handle_client []
        ⟨some (strBytes "GET"), fun _ => true, true, fun _ _ => some [], true⟩
        (fun _ => "") = ⟨[NetEvent.clientWrite resp503], [], true⟩ ∧
    writesToClient (handle_client []
        ⟨some (strBytes "GET"), fun _ => true, true, fun _ _ => some [], true⟩
        (fun _ => "")).trace = resp503 ∧
    connAttempts (handle_client []
        ⟨some (strBytes "GET"), fun _ => true, true, fun _ _ => some [], true⟩
        (fun _ => "")).trace = [] ∧
    writesToBackend (handle_client []
        ⟨some (strBytes "GET"), fun _ => true, true, fun _ _ => some [], true⟩
        (fun _ => "")).trace = [] :=
  unavailable_backend_response [] _ (fun _ => "") (strBytes "GET") rfl rfl rfl

/-- C4: Unreachable-backend response: when `next_backend` yields backend `b`
but connecting to `b.address` fails, the handler writes exactly the 502
literal to the client, returns `Ok(())`, made exactly one connection attempt
(no retry, no second backend), forwarded nothing, and advanced the pool one
rotation step. -/
theorem unreachable_backend_response (b : Backend) (rest : List Backend)
    (env : NetEnv) (dec : List Nat → String) (pending : List Nat)
    (hread : env.clientPending = some pending)
    (hconn : env.connectOk b.address = false)
    (hcw : env.clientWriteOk = true) :
    handle_client (b :: rest) env dec =
      ⟨[NetEvent.connAttempt b.address, NetEvent.clientWrite resp502],
       rest ++ [b], true⟩ ∧
    writesToClient (handle_client (b :: rest) env dec).trace = resp502 ∧
    connAttempts (handle_client (b :: rest) env dec).trace = [b.address] ∧
    writesToBackend (handle_client (b :: rest) env dec).trace = [] := by
  have hmain : handle_client (b :: rest) env dec =
      ⟨[NetEvent.connAttempt b.address, NetEvent.clientWrite resp502],
       rest ++ [b], true⟩ := by
    rw [handle_client_cons b rest env dec pending hread, hconn, hcw]
    rfl
  refine ⟨hmain, ?_, ?_, ?_⟩ <;> rw [hmain] <;>
    simp [writesToClient, connAttempts, writesToBackend]

/-- Closed instance of `unreachable_backend_response`: one dead backend. -/
theorem unreachable_backend_response_witness :
    handle_client [{ address := "127.0.0.1:9999" }]
        ⟨some (strBytes "GET"), fun _ => false, true, fun _ _ => some [], true⟩
        (fun _ => "") =
      ⟨[NetEvent.connAttempt "127.0.0.1:9999", NetEvent.clientWrite resp502],
       [] ++ [{ address := "127.0.0.1:9999" }], true⟩ ∧
    writesToClient (handle_client [{ address := "127.0.0.1:9999" }]
        ⟨some (strBytes "GET"), fun _ => false, true, fun _ _ => some [], true⟩
        (fun _ => "")).trace = resp502 ∧
    connAttempts (handle_client [{ address := "127.0.0.1:9999" }]
        ⟨some (strBytes "GET"), fun _ => false, true, fun _ _ => some [], true⟩
        (fun _ => "")).trace = ["127.0.0.1:9999"] ∧
    writesToBackend (handle_client [{ address := "127.0.0.1:9999" }]
        ⟨some (strBytes "GET"), fun _ => false, true, fun _ _ => some [], true⟩
        (fun _ => "")).trace = [] :=
  unreachable_backend_response { address := "127.0.0.1:9999" } [] _
    (fun _ => "") (strBytes "GET") rfl rfl rfl

theorem handle_client_writesToBackend (pool : List Backend) (env : NetEnv)
    (dec : List Nat → String) (pending : List Nat)
    (hread : env.clientPending = some pending) :
    writesToBackend (handle_client pool env dec).trace = pending.take 4096 ∨
    writesToBackend (handle_client pool env dec).trace = [] := by
  cases pool with
  | nil =>
    right
    rw [handle_client_nil env dec pending hread]
    split <;> simp [writesToBackend]
  | cons b rest =>
    rw [handle_client_cons b rest env dec pending hread]
    split
    · split
      · split
        · split <;> left <;> simp [writesToBackend]
        · left; simp [writesToBackend]
      · right; simp [writesToBackend]
    · split <;> right <;> simp [writesToBackend]

/-- C7: Truncation boundary: the single client read delivers at most 4096
bytes; whatever the network does, the bytes forwarded to the backend are
either exactly the bytes of that one read or nothing at all — never more —
and on the success path (pool non-empty, connect and backend write succeed)
they are exactly the first `min 4096 len` pending bytes, so client data
beyond the first 4096 bytes is never forwarded. -/
theorem truncation_boundary (pool : List Backend) (env : NetEnv)
    (dec : List Nat → String) (pending : List Nat)
    (hread : env.clientPending = some pending) :
    (writesToBackend (handle_client pool env dec).trace = pending.take 4096 ∨
     writesToBackend (handle_client pool env dec).trace = []) ∧
    (writesToBackend (handle_client pool env dec).trace).length ≤ 4096 ∧
    (∀ b rest, pool = b :: rest → env.connectOk b.address = true →
      env.backendWriteOk = true →
      writesToBackend (handle_client pool env dec).trace = pending.take 4096) := by
  refine ⟨handle_client_writesToBackend pool env dec pending hread, ?_, ?_⟩
  · rcases handle_client_writesToBackend pool env dec pending hread with hw | hw <;>
      rw [hw] <;> simp
  · rintro b rest rfl hconn hbw
    rw [handle_client_cons b rest env dec pending hread, hconn, hbw]
    cases env.backendRead b.address (pending.take 4096) with
    | none => simp [writesToBackend]
    | some response => cases env.clientWriteOk <;> simp [writesToBackend]

/-- Closed instance of `truncation_boundary`: a client read window of
4106 zero bytes gets cut to the first 4096 bytes. -/
theorem truncation_boundary_witness :
    (writesToBackend (handle_client [{ address := "127.0.0.1:8081" }]
        ⟨some (List.replicate 4106 0), fun _ => true, true, fun _ _ => some [], true⟩
        (fun _ => "")).trace = (List.replicate 4106 0).take 4096 ∨
     writesToBackend (handle_client [{ address := "127.0.0.1:8081" }]
        ⟨some (List.replicate 4106 0), fun _ => true, true, fun _ _ => some [], true⟩
        (fun _ => "")).trace = []) ∧
    (writesToBackend (handle_client [{ address := "127.0.0.1:8081" }]
        ⟨some (List.replicate 4106 0), fun _ => true, true, fun _ _ => some [], true⟩
        (fun _ => "")).trace).length ≤ 4096 ∧
    (∀ (b : Backend) (rest : List Backend),
      ([{ address := "127.0.0.1:8081" }] : List Backend) = b :: rest →
      (fun (_ : String) => true) b.address = true → true = true →
      writesToBackend (handle_client [{ address := "127.0.0.1:8081" }]
        ⟨some (List.replicate 4106 0), fun _ => true, true, fun _ _ => some [], true⟩
        (fun _ => "")).trace = (List.replicate 4106 0).take 4096) :=
  truncation_boundary [{ address := "127.0.0.1:8081" }]
    ⟨some (List.replicate 4106 0), fun _ => true, true, fun _ _ => some [], true⟩
    (fun _ => "") (List.replicate 4106 0) rfl

/-- C8: The rotation step is not reverted on downstream failure: if the pool
yielded backend `b` (state advanced to `rest ++ [b]`) and then the connect,
the backend write, or the backend read failed, the pool still holds the
completed rotation, and the following `next_backend` call returns the head
of `rest ++ [b]` — the backend after the failed one in rotation order. -/
theorem rotation_not_reverted (b : Backend) (rest : List Backend)
    (env : NetEnv) (dec : List Nat → String) (pending : List Nat)
    (hread : env.clientPending = some pending)
    (hfail : env.connectOk b.address = false ∨ env.backendWriteOk = false ∨
      env.backendRead b.address (pending.take 4096) = none) :
    (handle_client (b :: rest) env dec).pool = rest ++ [b] ∧
    (next_backend (handle_client (b :: rest) env dec).pool).1
      = (rest ++ [b]).head? := by
  have hpool := handle_client_cons_pool b rest env dec pending hread
  exact ⟨hpool, by rw [hpool, next_backend_fst]⟩

/-- Closed instance of `rotation_not_reverted`: after a failed connect to the
first of two backends, the pool is rotated and the second backend is next. -/
theorem rotation_not_reverted_witness :
    (handle_client ([{ address := "x" }, { address := "y" }] : List Backend)
        ⟨some [7], fun _ => false, true, fun _ _ => some [], true⟩
        (fun _ => "")).pool
      = ([{ address := "y" }] : List Backend) ++ [{ address := "x" }] ∧
    (next_backend (handle_client
        ([{ address := "x" }, { address := "y" }] : List Backend)
        ⟨some [7], fun _ => false, true, fun _ _ => some [], true⟩
        (fun _ => "")).pool).1
      = (([{ address := "y" }] : List Backend)
          ++ ([{ address := "x" }] : List Backend)).head? :=
  rotation_not_reverted { address := "x" } [{ address := "y" }]
    ⟨some [7], fun _ => false, true, fun _ _ => some [], true⟩
    (fun _ => "") [7] rfl (Or.inl rfl)

/-- C10: Byte-exact forwarding regardless of encoding: the handler's result
does not depend on the lossy string decoding of the request at all (its
result is bound and discarded, as in the source), and the bytes forwarded to
the backend are exactly the raw bytes delivered by the client read — also
when they are not valid UTF-8. -/
theorem byte_exact_forwarding (env : NetEnv) (dec₁ : List Nat → String)
    (b : Backend) (rest : List Backend) (pending : List Nat)
    (hread : env.clientPending = some pending)
    (hconn : env.connectOk b.address = true)
    (hbw : env.backendWriteOk = true) :
    (∀ (pool₀ : List Backend) (env₀ : NetEnv) (d₁ d₂ : List Nat → String),
      handle_client pool₀ env₀ d₁ = handle_client pool₀ env₀ d₂) ∧
    writesToBackend (handle_client (b :: rest) env dec₁).trace
      = pending.take 4096 := by
  refine ⟨fun pool₀ env₀ d₁ d₂ => rfl, ?_⟩
  rw [handle_client_cons b rest env dec₁ pending hread, hconn, hbw]
  cases env.backendRead b.address (pending.take 4096) with
  | none => simp [writesToBackend]
  | some response => cases env.clientWriteOk <;> simp [writesToBackend]

/-- Closed instance of `byte_exact_forwarding`: the invalid-UTF-8 bytes
`[0xFF, 0xFE, 0xFF]` are forwarded verbatim, whatever the decoder returns. -/
theorem byte_exact_forwarding_witness :
    (∀ (pool₀ : List Backend) (env₀ : NetEnv) (d₁ d₂ : List Nat → String),
      handle_client pool₀ env₀ d₁ = handle_client pool₀ env₀ d₂) ∧
    writesToBackend (handle_client [{ address := "127.0.0.1:8081" }]
        ⟨some [255, 254, 255], fun _ => true, true, fun _ _ => some [0], true⟩
        (fun _ => "decoded")).trace = ([255, 254, 255] : List Nat).take 4096 :=
  byte_exact_forwarding
    ⟨some [255, 254, 255], fun _ => true, true, fun _ _ => some [0], true⟩
    (fun _ => "decoded") { address := "127.0.0.1:8081" } []
    [255, 254, 255] rfl rfl rfl

/-! Concurrency model for `next_backend`.  In the source the whole body of
`next_backend` runs while holding `self.backends.lock().unwrap()`, so the
pop/push/return triple is one atomic step; any concurrent execution of `N`
calls is therefore linearized into some order of the callers, and the caller
scheduled `i`-th receives the `i`-th sequential rotation result. -/

/-- Results of `sched.length` linearized `next_backend` calls: the caller id
at position `i` of the linearization order `sched` is paired with the `i`-th
sequential rotation result it receives. -/
def concurrentResults (pool : List Backend) (sched : List Nat) :
    List (Nat × Option Backend) :=
  sched.zip (nextResults pool sched.length)

theorem nextResults_length (pool : List Backend) (N : Nat) :
    (nextResults pool N).length = N := by
  induction N with
  | zero => rfl
  | succ N ih => simp [nextResults, ih]

theorem nextResults_succ (pool : List Backend) (N : Nat) :
    nextResults pool (N + 1)
      = nextResults pool N ++ [(pool.rotate N).head?] := by
  rw [nextResults, poolAfter_eq_rotate, next_backend_fst]

theorem concurrentResults_snd (pool : List Backend) (sched : List Nat) :
    (concurrentResults pool sched).map Prod.snd
      = nextResults pool sched.length := by
  apply List.map_snd_zip
  rw [nextResults_length]

theorem div_mod_count_step (k j N : Nat) (hk : 0 < k) (hj : j < k) :
    (N + 1) / k + (if j < (N + 1) % k then 1 else 0)
      = N / k + (if j < N % k then 1 else 0)
          + (if N % k = j then 1 else 0) := by
  have hdm : k * (N / k) + N % k = N := Nat.div_add_mod N k
  have hr : N % k < k := Nat.mod_lt _ hk
  have hmul : k * (N / k + 1) = k * (N / k) + k := Nat.mul_succ k (N / k)
  by_cases hrk : N % k + 1 = k
  · have h2 : (N + 1) / k = N / k + 1 ∧ (N + 1) % k = 0 :=
      (Nat.div_mod_unique hk).mpr ⟨by omega, hk⟩
    rw [h2.1, h2.2]
    split_ifs <;> omega
  · have h2 : (N + 1) / k = N / k ∧ (N + 1) % k = N % k + 1 :=
      (Nat.div_mod_unique hk).mpr ⟨by omega, by omega⟩
    rw [h2.1, h2.2]
    split_ifs <;> omega

theorem ceil_div_of_mod_pos (k N : Nat) (hk : 0 < k) (hm : 0 < N % k) :
    (N + k - 1) / k = N / k + 1 := by
  have hdm : k * (N / k) + N % k = N := Nat.div_add_mod N k
  have hr : N % k < k := Nat.mod_lt _ hk
  have hmul : k * (N / k + 1) = k * (N / k) + k := Nat.mul_succ k (N / k)
  have h2 : (N + k - 1) / k = N / k + 1 ∧ (N + k - 1) % k = N % k - 1 :=
    (Nat.div_mod_unique hk).mpr ⟨by omega, by omega⟩
  exact h2.1

theorem count_nextResults (pool : List Backend) (hnodup : pool.Nodup)
    (b : Backend) (hb : b ∈ pool) (N : Nat) :
    (nextResults pool N).count (some b)
      = N / pool.length
          + (if pool.indexOf b < N % pool.length then 1 else 0) := by
  have hne : pool ≠ [] := by rintro rfl; simp at hb
  have hk : 0 < pool.length := List.length_pos.mpr hne
  have hj : pool.indexOf b < pool.length := List.indexOf_lt_length.mpr hb
  induction N with
  | zero => simp [nextResults]
  | succ N ih =>
    rw [nextResults_succ, List.count_append, ih]
    have hhead : (pool.rotate N).head? = pool.get? (N % pool.length) := by
      rw [← List.rotate_mod, List.head?_rotate (Nat.mod_lt _ hk),
        List.get?_eq_getElem?]
    have hind : List.count (some b) [(pool.rotate N).head?]
        = (if N % pool.length = pool.indexOf b then 1 else 0) := by
      rw [hhead]
      by_cases heq : N % pool.length = pool.indexOf b
      · rw [if_pos heq, heq, List.indexOf_get? hb]
        simp
      · rw [if_neg heq]
        have hx : pool.get? (N % pool.length) ≠ some b := by
          intro hsome
          apply heq
          rw [List.get?_eq_getElem?] at hsome
          obtain ⟨hlt, hEq⟩ := List.getElem?_eq_some.mp hsome
          rw [← hEq]
          exact (List.indexOf_getElem hnodup _ hlt).symm
        rw [List.get?_eq_getElem?] at hx
        simp [List.count_cons, hx]
    rw [hind]
    exact (div_mod_count_step pool.length (pool.indexOf b) N hk hj).symm

/-- C9: No duplicate rotation under concurrency: the mutex makes each
`next_backend` call atomic, so `N` concurrent calls linearize into some
caller order `sched`, each caller receiving a distinct rotation step
(`concurrentResults`).  Whatever that order is, over a duplicate-free pool of
size `k` each backend is received exactly `N / k` (floor) or
`(N + k - 1) / k` (ceiling) times in total. -/
theorem no_duplicate_rotation (addrs : List String) (sched : List Nat)
    (b : Backend) (hnodup : addrs.Nodup) (hb : b ∈ LoadBalancer.new addrs) :
    ((concurrentResults (LoadBalancer.new addrs) sched).map Prod.snd).count
        (some b) = sched.length / addrs.length ∨
    ((concurrentResults (LoadBalancer.new addrs) sched).map Prod.snd).count
        (some b) = (sched.length + addrs.length - 1) / addrs.length := by
  have hlen : (LoadBalancer.new addrs).length = addrs.length := by
    simp [LoadBalancer.new]
  have hinj : Function.Injective (fun a => ({ address := a } : Backend)) :=
    fun a₁ a₂ h => congrArg Backend.address h
  have hnodup₂ : (LoadBalancer.new addrs).Nodup := hnodup.map hinj
  have hne : LoadBalancer.new addrs ≠ [] := by rintro h; simp [h] at hb
  have hk : 0 < addrs.length := by
    rw [← hlen]; exact List.length_pos.mpr hne
  rw [concurrentResults_snd,
    count_nextResults (LoadBalancer.new addrs) hnodup₂ b hb sched.length, hlen]
  by_cases hcase :
      (LoadBalancer.new addrs).indexOf b < sched.length % addrs.length
  · right
    rw [if_pos hcase, ceil_div_of_mod_pos addrs.length sched.length hk
      (Nat.pos_of_ne_zero (by omega))]
  · left
    rw [if_neg hcase]
    exact Nat.add_zero _

/-- Closed instance of `no_duplicate_rotation`: four linearized calls over
three distinct backends return the first backend twice — the ceiling of
`4 / 3`. -/
theorem no_duplicate_rotation_witness :
    ((concurrentResults (LoadBalancer.new ["a", "b", "c"]) [0, 1, 2, 3]).map
        Prod.snd).count (some { address := "a" })
      = ([0, 1, 2, 3] : List Nat).length / (["a", "b", "c"] : List String).length ∨
    ((concurrentResults (LoadBalancer.new ["a", "b", "c"]) [0, 1, 2, 3]).map
        Prod.snd).count (some { address := "a" })
      = (([0, 1, 2, 3] : List Nat).length + (["a", "b", "c"] : List String).length - 1)
          / (["a", "b", "c"] : List String).length :=
  no_duplicate_rotation ["a", "b", "c"] [0, 1, 2, 3] { address := "a" }
    (by decide) (by decide)

end Baalencer
